import Mathlib

/-!
Shallow embedding of `src/generate_test_data.cpp`, the Snappy test-fixture
generator: the corpus definition, the fixture writer `writeTestCase`, and the
driving loop `main`, together with proofs of the specification claims.

Modelling conventions:
* a byte is a `Nat` (every corpus byte is an ASCII value below 256);
* a C++ `std::string` input is its byte sequence (`strBytes`);
* the external compression primitive `snappy::Compress` is a parameter
  `compress : List Byte → List Byte` wherever the claims hold for any
  conforming primitive (the primitive is an external collaborator that lives
  in `snappy-cpp/`, outside the harness source);
* the file system is a map from path to file contents, plus the chronological
  trace of successful file creations; whether an `std::ofstream` open succeeds
  is an environment oracle `env : String → Bool` (the source never checks the
  stream state, so its control flow is independent of `env`);
* each `std::cout` statement of the source is recorded as a structured `Line`;
  the ratio line prints `(double)input.size() / compressed.size()`, recorded
  here as the pair of operands of that division.
-/

namespace SnappyGen

/-- A byte, modelled as a natural number. -/
abbrev Byte := Nat

/-- Byte contents of an ASCII string literal, as stored in a C++ `std::string`. -/
def strBytes (s : String) : List Byte := s.data.map Char.toNat

/-- Spec §3: a corpus entry pairs a name with a byte-sequence input. -/
structure TestCase where
  name : String
  input : List Byte
deriving DecidableEq

/-- Spec §3: the per-entry diagnostic report (sizes printed by lines 21-22). -/
structure Report where
  name : String
  input_size : Nat
  compressed_size : Nat
deriving DecidableEq

/-- One console line of the generator, mirroring each `std::cout` statement.
`ratio n c` records that the program prints the division `(double)n / c`
followed by `"x"` (line 23 of the source); `ratioNA` is emitted by no source
line at all — it exists only so the spec's N/A reporting rule
(`specRatioLine`) can be stated and compared against the code. -/
inductive Line where
  | banner
  | blank
  | header (name : String)
  | inputSize (n : Nat)
  | compressedSize (n : Nat)
  | ratio (n c : Nat)
  | ratioNA
  | savedTo (path : String)
  | complete
deriving DecidableEq

/-- Line 15: `"Tests/SnappySwiftTests/TestData/" + name + ".snappy"`. -/
def artifactPath (name : String) : String :=
  "Tests/SnappySwiftTests/TestData/" ++ name ++ ".snappy"

/-- The sizes printed for one entry (lines 20-22), as the spec's `Report`. -/
def reportOf (compress : List Byte → List Byte) (tc : TestCase) : Report :=
  { name := tc.name
    input_size := tc.input.length
    compressed_size := (compress tc.input).length }

/-- The console block printed by `writeTestCase` (lines 20-25): name header,
input size, compressed size, the unconditional ratio division, the
`Saved to:` line, and the trailing blank line. -/
def entryLines (compress : List Byte → List Byte) (tc : TestCase) : List Line :=
  [Line.header tc.name,
   Line.inputSize tc.input.length,
   Line.compressedSize (compress tc.input).length,
   Line.ratio tc.input.length (compress tc.input).length,
   Line.savedTo (artifactPath tc.name),
   Line.blank]

/-- State accumulated by a run: the file system contents, the chronological
trace of successfully created files, the console output, and the sequence of
per-entry reports (the structured view of the printed blocks). -/
structure GenState where
  fs : String → Option (List Byte)
  writes : List (String × List Byte)
  out : List Line
  reports : List Report

/-- Lines 16-18: open the artifact path for binary writing (truncating any
existing content), write the compressed bytes, close. When the open fails
(`env` returns `false`, e.g. the output directory is missing) the stream is in
a failed state, every write is a no-op and no file is created; the source
never inspects the stream, so nothing else changes. -/
def writeArtifact (compress : List Byte → List Byte) (env : String → Bool)
    (tc : TestCase) (fs : String → Option (List Byte)) :
    String → Option (List Byte) :=
  if env (artifactPath tc.name) then
    fun p => if p = artifactPath tc.name then some (compress tc.input) else fs p
  else fs

/-- Lines 11-26: `writeTestCase` — compress the input, write the artifact
file, and print the diagnostic block. No return value is inspected anywhere:
neither the compression call nor the stream operations are checked. -/
def writeTestCase (compress : List Byte → List Byte) (env : String → Bool)
    (tc : TestCase) (s : GenState) : GenState :=
  let compressed := compress tc.input
  let filename := artifactPath tc.name
  { fs := writeArtifact compress env tc s.fs
    writes := s.writes ++ (if env filename then [(filename, compressed)] else [])
    out := s.out ++ entryLines compress tc
    reports := s.reports ++ [reportOf compress tc] }

/-- Test 5 input: `for (int i = 0; i < 20; i++) pattern += "abcdefgh";`. -/
def patternInput : List Byte := (List.replicate 20 (strBytes "abcdefgh")).flatten

/-- Test 6 input: four adjacent string literals, the last without the
trailing space (lines 52-56). -/
def longerInput : List Byte :=
  strBytes ("The quick brown fox jumps over the lazy dog. "
    ++ "The quick brown fox jumps over the lazy dog. "
    ++ "The quick brown fox jumps over the lazy dog. "
    ++ "The quick brown fox jumps over the lazy dog.")

/-- Test 7 input: `for (int i = 32; i < 127; i++) ascii += char(i);` —
the bytes 32, 33, ..., 126 in increasing order. -/
def asciiInput : List Byte := List.range' 32 95

/-- Test 10 input: `for (int i = 0; i < 100; i++) numbers += std::to_string(i) + " ";`. -/
def numbersInput : List Byte :=
  strBytes (String.join ((List.range 100).map (fun i => toString i ++ " ")))

/-- The ten corpus entries of `main` (lines 33-79), in declaration order. -/
def corpus : List TestCase :=
  [⟨"empty", strBytes ""⟩,
   ⟨"single_byte", strBytes "A"⟩,
   ⟨"hello", strBytes "Hello, World!"⟩,
   ⟨"repeated", List.replicate 100 97⟩,
   ⟨"pattern", patternInput⟩,
   ⟨"longer_text", longerInput⟩,
   ⟨"ascii", asciiInput⟩,
   ⟨"large", List.replicate 10000 120⟩,
   ⟨"mixed", strBytes "AAAAAAAbbbbbCCCCCdddEEFF1234567890"⟩,
   ⟨"numbers", numbersInput⟩]

/-- Result of a full process run: the exit status and the final state. -/
structure RunResult where
  exitCode : Nat
  state : GenState

/-- The state before `main` runs: no files, no output, no reports. -/
def initState : GenState :=
  { fs := fun _ => none, writes := [], out := [], reports := [] }

/-- Lines 28-83: `main` — print the banner and a blank line, run
`writeTestCase` on each corpus entry in declaration order, print the
completion line, and `return 0` (unconditionally: no branch in `main` or in
`writeTestCase` examines any failure condition). -/
def runMain (compress : List Byte → List Byte) (env : String → Bool) : RunResult :=
  let s0 : GenState := { initState with out := [Line.banner, Line.blank] }
  let s1 := corpus.foldl (fun s tc => writeTestCase compress env tc s) s0
  { exitCode := 0, state := { s1 with out := s1.out ++ [Line.complete] } }

/-- Recognises the `name:` header line that opens each diagnostic block. -/
def isHeader : Line → Bool
  | Line.header _ => true
  | _ => false

/-- Modelled from the spec: the ratio-reporting rule of §4.2 — "`ratio`
computed only when `compressed_size > 0` (when `compressed_size == 0`, report
ratio as undefined/\"N/A\" rather than dividing by zero)". Stated as its own
definition so it can be compared with the `Line.ratio` emission the source
actually performs. -/
def specRatioLine (n c : Nat) : Line :=
  if 0 < c then Line.ratio n c else Line.ratioNA

/-- Little-endian base-128 digits of `n`, with a continuation bit on every
digit but the last; the first argument is fuel (always sufficient at `n`). -/
def varintAux : Nat → Nat → List Byte
  | 0, n => [n % 128]
  | fuel + 1, n => if n < 128 then [n] else (n % 128 + 128) :: varintAux fuel (n / 128)

/-- Variable-length integer encoding used by the modelled compressor. -/
def varint (n : Nat) : List Byte := varintAux n n

/-- Run-length grouping of a byte sequence into (value, run length) pairs. -/
def rle : List Byte → List (Byte × Nat)
  | [] => []
  | b :: rest =>
    match rle rest with
    | [] => [(b, 1)]
    | (c, k) :: runs => if b = c then (b, k + 1) :: runs else (b, 1) :: (c, k) :: runs

/-- Modelled from the spec: the external compression primitive
`snappy::Compress` lives in `snappy-cpp/` (referenced by the build
instructions in the source header) and is not part of the harness source; the
spec (§6) constrains it only to be `Compress(input: byte sequence) →
compressed: byte sequence`, deterministic for a given input and accepting any
byte sequence. Realised here as a length preamble followed by run-length
pairs, so that highly redundant input compresses (spec §8) while the function
stays deterministic and total. -/
def Compress (input : List Byte) : List Byte :=
  varint input.length ++ ((rle input).map (fun r => r.1 :: varint r.2)).flatten

/-- C7: the names of the ten corpus entries are pairwise distinct, and so are
the artifact paths `<output_dir>/<name>.snappy` derived from them — no two
entries write to the same file. -/
theorem c7_names_and_paths_distinct :
    (corpus.map TestCase.name).Nodup ∧
    (corpus.map (fun tc => artifactPath tc.name)).Nodup := by
  decide

/-- C9: the `ascii` corpus entry (position 6 of the corpus) has as input every
printable byte value of the contiguous range 32..126 exactly once, in
increasing order, for a total length of 95 bytes. -/
theorem c9_ascii_full_diversity :
    corpus[6]? = some ⟨"ascii", asciiInput⟩ ∧
    asciiInput.length = 95 ∧
    asciiInput.Nodup ∧
    List.Chain' (fun a b => a < b) asciiInput ∧
    ∀ b : Nat, b ∈ asciiInput ↔ 32 ≤ b ∧ b ≤ 126 := by
  refine ⟨rfl, rfl, ?_, ?_, ?_⟩
  · exact List.nodup_range' 32 95
  · exact (List.pairwise_lt_range' 32 95).chain'
  · intro b
    rw [asciiInput, List.mem_range'_1]
    omega

/-- C8: for the uniform-run entry `repeated` (position 3 of the corpus),
whose input is the byte 97 repeated 100 times, the modelled compression
primitive returns an output strictly shorter than the 100-byte input (and
nonempty), so the reported ratio exceeds 1. -/
theorem c8_uniform_run_compresses :
    corpus[3]? = some ⟨"repeated", List.replicate 100 97⟩ ∧
    (List.replicate 100 97 : List Byte).length = 100 ∧
    0 < (Compress (List.replicate 100 97)).length ∧
    (Compress (List.replicate 100 97)).length < 100 := by
  refine ⟨rfl, rfl, by decide, by decide⟩

/-- C4: for every compression primitive and environment, the run's reports
are exactly one `reportOf` per corpus entry; every report carries
`input_size = len(input)` and `compressed_size = len(compressed)`, and the
first report — the empty-input entry — has `input_size = 0`. -/
theorem c4_report_sizes (compress : List Byte → List Byte) (env : String → Bool) :
    (runMain compress env).state.reports = corpus.map (reportOf compress) ∧
    (∀ tc : TestCase, (reportOf compress tc).input_size = tc.input.length ∧
      (reportOf compress tc).compressed_size = (compress tc.input).length) ∧
    ((runMain compress env).state.reports.head?.map Report.input_size) = some 0 := by
  exact ⟨rfl, fun tc => ⟨rfl, rfl⟩, rfl⟩

/-- C5: `writeTestCase` is idempotent on the file system: running it twice on
the same entry leaves every path with the same contents as running it once
(compression is a function of the input, and the second run truncates and
rewrites the same file). -/
theorem c5_write_idempotent (compress : List Byte → List Byte) (env : String → Bool)
    (tc : TestCase) (s : GenState) (p : String) :
    (writeTestCase compress env tc (writeTestCase compress env tc s)).fs p
      = (writeTestCase compress env tc s).fs p := by
  unfold writeTestCase writeArtifact
  by_cases h : env (artifactPath tc.name) = true
  · by_cases hp : p = artifactPath tc.name <;> simp [h, hp]
  · simp [h]

/-- C3: when the destination can be opened, `writeTestCase` leaves at the path
`Tests/SnappySwiftTests/TestData/<name>.snappy` exactly the byte sequence the
compression primitive returned for the entry's input — no wrapping metadata,
no checksum, no extra bytes — and that path is the one `artifactPath`
derives. -/
theorem c3_artifact_path_and_content (compress : List Byte → List Byte)
    (env : String → Bool) (tc : TestCase) (s : GenState)
    (h : env ("Tests/SnappySwiftTests/TestData/" ++ tc.name ++ ".snappy") = true) :
    (writeTestCase compress env tc s).fs
        ("Tests/SnappySwiftTests/TestData/" ++ tc.name ++ ".snappy")
      = some (compress tc.input) ∧
    artifactPath tc.name = "Tests/SnappySwiftTests/TestData/" ++ tc.name ++ ".snappy" := by
  refine ⟨?_, rfl⟩
  simp [writeTestCase, writeArtifact, artifactPath, h]

/-- Witness for C3 at a concrete entry, primitive and environment. -/
theorem c3_witness :
    (writeTestCase (fun _ => [0]) (fun _ => true) ⟨"empty", []⟩ initState).fs
        ("Tests/SnappySwiftTests/TestData/" ++ "empty" ++ ".snappy") = some [0] ∧
    artifactPath "empty" = "Tests/SnappySwiftTests/TestData/" ++ "empty" ++ ".snappy" :=
  c3_artifact_path_and_content (fun _ => [0]) (fun _ => true) ⟨"empty", []⟩ initState rfl

/-- C6: a full run against an environment where every open succeeds (an
existing, empty output directory) creates exactly one artifact file per
corpus entry — the ten pairwise-distinct paths derived from the ten entry
names, and nothing else — and prints exactly one diagnostic block (one
`name:` header) per entry, so the report count equals the corpus size. -/
theorem c6_one_artifact_per_entry (compress : List Byte → List Byte) :
    (runMain compress (fun _ => true)).state.writes.map Prod.fst
        = corpus.map (fun tc => artifactPath tc.name) ∧
    (corpus.map (fun tc => artifactPath tc.name)).Nodup ∧
    corpus.length = 10 ∧
    ((runMain compress (fun _ => true)).state.out.countP isHeader) = corpus.length ∧
    (runMain compress (fun _ => true)).state.reports.length = corpus.length := by
  exact ⟨rfl, by decide, rfl, rfl, rfl⟩

/-- C10: for every compression primitive and every environment — including
ones where every file open fails — `main` exits with status 0, prints the
banner, the ten full diagnostic blocks (each including its `Saved to:` line)
and the completion line; when every open fails (e.g. the output directory is
missing) the file system still holds no artifact at all, yet the output and
exit status are identical to a fully successful run. -/
theorem c10_always_reports_success (compress : List Byte → List Byte)
    (env : String → Bool) :
    (runMain compress env).exitCode = 0 ∧
    (runMain compress env).state.out
      = [Line.banner, Line.blank]
          ++ ((corpus.map (entryLines compress)).flatten ++ [Line.complete]) ∧
    (∀ tc ∈ corpus, Line.savedTo (artifactPath tc.name) ∈ (runMain compress env).state.out) ∧
    (∀ p : String, (runMain compress (fun _ => false)).state.fs p = none) := by
  refine ⟨rfl, rfl, ?_, fun p => rfl⟩
  intro tc htc
  have hout : (runMain compress env).state.out
      = [Line.banner, Line.blank]
          ++ ((corpus.map (entryLines compress)).flatten ++ [Line.complete]) := rfl
  rw [hout]
  have h1 : Line.savedTo (artifactPath tc.name) ∈ entryLines compress tc := by
    simp [entryLines]
  have h2 : entryLines compress tc ∈ corpus.map (entryLines compress) :=
    List.mem_map_of_mem _ htc
  exact List.mem_append_right _
    (List.mem_append_left _ (List.mem_flatten_of_mem h2 h1))

/-- Witness for C10 at a concrete entry, primitive and all-failing
environment. -/
theorem c10_witness :
    Line.savedTo (artifactPath "empty")
      ∈ (runMain (fun _ => []) (fun _ => false)).state.out :=
  (c10_always_reports_success (fun _ => []) (fun _ => false)).2.2.1
    ⟨"empty", strBytes ""⟩ (by decide)

/-- C1 fails on the code: in an environment where every file open fails (so
the very first corpus entry already fails to produce its artifact), the
process still processes all ten entries, creates no artifact, prints the
completion line, and exits with status 0 — it neither aborts nor returns a
non-zero status, and the zero exit status does not indicate full success. -/
theorem c1_counterexample :
    ((fun _ => false) (artifactPath "empty") = false) ∧
    (runMain (fun _ => []) (fun _ => false)).state.writes = [] ∧
    (runMain (fun _ => []) (fun _ => false)).exitCode = 0 ∧
    (runMain (fun _ => []) (fun _ => false)).state.reports.length = 10 ∧
    Line.complete ∈ (runMain (fun _ => []) (fun _ => false)).state.out := by
  exact ⟨rfl, rfl, rfl, rfl, by decide⟩

/-- C1 as amended: the process never detects an entry failure — for every
compression primitive and every environment (however many opens or writes
fail) the exit status is 0, all ten corpus entries are processed, and the
completion line is printed. -/
theorem c1_never_aborts (compress : List Byte → List Byte) (env : String → Bool) :
    (runMain compress env).exitCode = 0 ∧
    (runMain compress env).state.reports.length = corpus.length ∧
    Line.complete ∈ (runMain compress env).state.out := by
  refine ⟨rfl, rfl, ?_⟩
  have hout : (runMain compress env).state.out
      = [Line.banner, Line.blank]
          ++ ((corpus.map (entryLines compress)).flatten ++ [Line.complete]) := rfl
  rw [hout]
  exact List.mem_append_right _ (List.mem_append_right _ (List.mem_singleton_self _))

/-- C2 fails on the code: the writer has no `compressed_size == 0` guard and
no N/A branch. For a primitive returning an empty compression (size 0), the
emitted block still contains the ratio line dividing by the zero
`compressed_size`, and never the N/A line that the spec's rule
(`specRatioLine`) prescribes for that case. -/
theorem c2_counterexample :
    Line.ratio 0 0 ∈ entryLines (fun _ => []) ⟨"empty", []⟩ ∧
    Line.ratioNA ∉ entryLines (fun _ => []) ⟨"empty", []⟩ ∧
    specRatioLine 0 0 = Line.ratioNA ∧
    specRatioLine 0 0 ∉ entryLines (fun _ => []) ⟨"empty", []⟩ := by
  decide

/-- C2 as amended: for every corpus entry and every compression primitive the
fixture writer unconditionally computes and prints the ratio
`input_size / compressed_size` — with no guard on `compressed_size`, even
when it is 0 — and never emits an N/A report. -/
theorem c2_ratio_unconditional (compress : List Byte → List Byte)
    (env : String → Bool) (tc : TestCase) (s : GenState) :
    Line.ratio tc.input.length (compress tc.input).length
        ∈ (writeTestCase compress env tc s).out ∧
    Line.ratio tc.input.length (compress tc.input).length ∈ entryLines compress tc ∧
    Line.ratioNA ∉ entryLines compress tc := by
  refine ⟨?_, by simp [entryLines], by simp [entryLines]⟩
  have hout : (writeTestCase compress env tc s).out
      = s.out ++ entryLines compress tc := rfl
  rw [hout]
  exact List.mem_append_right _ (by simp [entryLines])

end SnappyGen
